import Mathlib

/-!
Shallow embedding of the `academic-cc` Hyperledger Fabric chaincode
(`network-new/chaincode/academic-cc`): the ClassContract, MaterialContract,
ExamContract, GradeContract and the legacy AcademicContract entry point.

Conventions of the embedding:

* The world state (one key space shared by every contract of the chaincode)
  is an association list `Ledger`; `getState`/`putState` mirror
  `ctx.stub.getState` / `ctx.stub.putState` (replace-in-place, append when
  absent); full range scans (`getStateByRange('', '')`) iterate the list.
* JSON records are the sum type `Rec`; the `docType` discriminator of the
  source corresponds to the constructor.
* Instants (JS `Date` values, compared numerically by their epoch-millisecond
  value) are `Int` milliseconds.  ISO date strings stored in records are
  modelled by the instant they denote; `CreateExam` / `UpdateExamDate`
  reject unparsable dates, so stored dates always denote an instant.
* A resolved caller is `Caller` (MSP id string plus the CN extracted from the
  X.509 subject by `_getCallerIdentity`).
* Thrown `Error`s become `Except CcErr`; the constructors of `CcErr` mirror
  the distinct error conditions of the source messages.
* `new Date()` — the peer-local wall clock that `lib/exam.js`,
  `lib/material.js` and `lib/grade.js` read — is passed in as an explicit
  `localNow`/`localTime` argument; `ctx.stub.getTxTimestamp()` (the
  deterministic per-transaction timestamp used by `lib/class.js` and
  `index.js`) is passed as `txTime`.
-/

namespace AcademicCC

/-- Epoch milliseconds, the value by which JS `Date`s compare. -/
abbrev Instant := Int

/-- A `docType: 'class'` record as stored by `ClassContract.CreateClass`. -/
structure ClassData where
  id : String
  name : String
  description : String
  modules : List String
  enrolledStudents : List String
  createdBy : String
  createdAt : Instant
  updatedAt : Instant
deriving DecidableEq

/-- A `docType: 'exam'` record as stored by `ExamContract.CreateExam`
(`lib/exam.js`).  `correctionFileHash`/`correctionUploadedAt` are `null`
until `UploadCorrection`, modelled with `Option`. -/
structure ExamData where
  id : String
  classId : String
  moduleId : String
  title : String
  examDate : Instant
  examFileHash : String
  correctionFileHash : Option String
  correctionUploadedAt : Option Instant
  createdBy : String
  createdAt : Instant
deriving DecidableEq

/-- A `docType: 'grade'` record in the shape stored by
`AcademicContract.SubmitGrade` (`index.js`): score and maxScore are the
`parseFloat` results of the string arguments (modelled as the parsed numeric
value), `isPublished` defaults to `false`, `publishedAt` is absent until
`PublishGrade`. -/
structure GradeData where
  gradeId : String
  examId : String
  studentId : String
  score : Int
  maxScore : Int
  comments : String
  isPublished : Bool
  submittedAt : Instant
  publishedAt : Option Instant
deriving DecidableEq

/-- A `docType: 'material'` record as stored by
`MaterialContract.UploadCourseMaterial` (`lib/material.js`). -/
structure MaterialData where
  id : String
  classId : String
  moduleId : String
  title : String
  type : String
  ipfsHash : String
  uploadedBy : String
  uploadedAt : Instant
deriving DecidableEq

/-- A world-state record; the constructor is the `docType` discriminator. -/
inductive Rec where
  | classRec (c : ClassData)
  | examRec (e : ExamData)
  | gradeRec (g : GradeData)
  | materialRec (m : MaterialData)
deriving DecidableEq

/-- The chaincode world state: an association list of key/record pairs,
iterated in order by `getStateByRange('', '')`. -/
abbrev Ledger := List (String × Rec)

/-- `ctx.stub.getState(key)`: first binding of the key, `none` when absent
(the JS `!bytes || bytes.length === 0` check). -/
def getState : Ledger → String → Option Rec
  | [], _ => none
  | (k, r) :: rest, key => if k = key then some r else getState rest key

/-- `ctx.stub.putState(key, value)`: replace the binding in place, append
when the key is new. -/
def putState : Ledger → String → Rec → Ledger
  | [], key, v => [(key, v)]
  | (k, r) :: rest, key, v =>
      if k = key then (key, v) :: rest else (k, r) :: putState rest key v

/-- The caller identity resolved by the substrate: the MSP id returned by
`ctx.clientIdentity.getMSPID()` and the CN extracted from
`ctx.clientIdentity.getID()` by `_getCallerIdentity`. -/
structure Caller where
  mspId : String
  callerId : String
deriving DecidableEq

/-- `_isSchoolMember`: `mspID === 'SchoolMSP'`. -/
def isSchoolMember (c : Caller) : Bool := c.mspId = "SchoolMSP"

/-- `_isStudentMember`: `mspID === 'StudentsMSP'`. -/
def isStudentMember (c : Caller) : Bool := c.mspId = "StudentsMSP"

/-- The distinct error conditions thrown by the chaincode, one constructor
per distinguishable condition (the spec vocabulary of §7). -/
inductive CcErr where
  | accessDenied
  | notFound
  | notAClass
  | notAnExam
  | notAGrade
  | alreadyExists
  | alreadyEnrolled
  | invalidArgument
  | tooEarly
  | notYetAvailable
  | notPublished
deriving DecidableEq

/-- JS truthiness of a nullable string: `!x` holds for `null` and `''`. -/
def strFalsy : Option String → Bool
  | none => true
  | some s => s == ""

instance instDecEqExcept {ε α : Type} [DecidableEq ε] [DecidableEq α] :
    DecidableEq (Except ε α) := fun x y =>
  match x, y with
  | .ok a, .ok b =>
      if h : a = b then .isTrue (by rw [h])
      else .isFalse (fun hh => h (Except.ok.inj hh))
  | .error a, .error b =>
      if h : a = b then .isTrue (by rw [h])
      else .isFalse (fun hh => h (Except.error.inj hh))
  | .ok _, .error _ => .isFalse (fun hh => Except.noConfusion hh)
  | .error _, .ok _ => .isFalse (fun hh => Except.noConfusion hh)

end AcademicCC

namespace AcademicCC.MaterialContract

/-- `_checkEnrollment` of `lib/material.js` (lines 55-94): teachers pass
unconditionally; students must appear in `enrolledStudents` of the class
(missing class, wrong docType, or non-membership throw); any other MSP is
denied. -/
def checkEnrollment (st : Ledger) (caller : Caller) (classId : String) :
    Except CcErr Unit :=
  if isSchoolMember caller then .ok ()
  else if isStudentMember caller then
    match getState st classId with
    | none => .error .notFound
    | some (.classRec cd) =>
        if cd.enrolledStudents.contains caller.callerId then .ok ()
        else .error .accessDenied
    | some _ => .error .notAClass
  else .error .accessDenied

end AcademicCC.MaterialContract

namespace AcademicCC.ExamContract

/-- `_checkEnrollment` of `lib/exam.js` (lines 56-95), written out from that
file: the same decision procedure as the Material variant. -/
def checkEnrollment (st : Ledger) (caller : Caller) (classId : String) :
    Except CcErr Unit :=
  if isSchoolMember caller then .ok ()
  else if isStudentMember caller then
    match getState st classId with
    | none => .error .notFound
    | some (.classRec cd) =>
        if cd.enrolledStudents.contains caller.callerId then .ok ()
        else .error .accessDenied
    | some _ => .error .notAClass
  else .error .accessDenied

/-- `UploadCorrection` of `lib/exam.js` (lines 191-246).  `localNow` is the
value of `new Date()` read inside the operation (the peer-local wall clock,
not the transaction timestamp).  Returns the new world state and the updated
exam record. -/
def UploadCorrection (st : Ledger) (caller : Caller) (localNow : Instant)
    (examId correctionFileHash : String) : Except CcErr (Ledger × ExamData) :=
  if !isSchoolMember caller then .error .accessDenied
  else
    match getState st examId with
    | none => .error .notFound
    | some (.examRec exam) =>
        if localNow < exam.examDate then .error .tooEarly
        else
          let exam2 := { exam with
            correctionFileHash := some correctionFileHash,
            correctionUploadedAt := some localNow }
          .ok (putState st examId (.examRec exam2), exam2)
    | some _ => .error .notAnExam

/-- One element of the JSON array returned by `GetExams`.  A field of the
JS object that is only conditionally set is an `Option` whose `none` means
the field is absent from the returned object; `correctionFileHash` and
`correctionUploadedAt` are nullable when present, hence doubly optional. -/
structure ExamView where
  id : String
  classId : String
  moduleId : String
  title : String
  examDate : Instant
  createdBy : String
  createdAt : Instant
  correctionFileHash : Option (Option String) := none
  correctionUploadedAt : Option (Option Instant) := none
  correctionAvailable : Bool
  correctionAvailableAt : Option Instant := none
  correctionAvailableIn : Option Nat := none
deriving DecidableEq

/-- The per-exam object built inside the `GetExams` loop (lines 283-322 of
`lib/exam.js`): availability is `now >= examDate + 48h && hash !== null`;
teachers additionally get the raw `correctionFileHash`; students never get
the hash, and get either the upload time (when available) or the availability
instant plus the `Math.ceil` hours remaining (when not). -/
def examView (isTeacher : Bool) (localNow : Instant) (e : ExamData) : ExamView :=
  let correctionAvailableAt : Instant := e.examDate + 48 * 60 * 60 * 1000
  let correctionAvailable : Bool :=
    decide (correctionAvailableAt ≤ localNow) && e.correctionFileHash.isSome
  let base : ExamView :=
    { id := e.id, classId := e.classId, moduleId := e.moduleId,
      title := e.title, examDate := e.examDate, createdBy := e.createdBy,
      createdAt := e.createdAt, correctionAvailable := correctionAvailable }
  if isTeacher then
    { base with
      correctionFileHash := some e.correctionFileHash,
      correctionUploadedAt := some e.correctionUploadedAt }
  else if correctionAvailable then
    { base with correctionUploadedAt := some e.correctionUploadedAt }
  else
    { base with
      correctionAvailableAt := some correctionAvailableAt,
      correctionAvailableIn :=
        if localNow < correctionAvailableAt then
          some (((correctionAvailableAt - localNow).toNat + 3599999) / 3600000)
        else none }

/-- `GetExams` of `lib/exam.js` (lines 260-338): enrollment check against
the queried class, then a full range scan keeping the exam records of that
class, each projected through `examView`. -/
def GetExams (st : Ledger) (caller : Caller) (localNow : Instant)
    (classId : String) : Except CcErr (List ExamView) :=
  match checkEnrollment st caller classId with
  | .error e => .error e
  | .ok _ =>
      .ok (st.filterMap fun p =>
        match p.2 with
        | .examRec e =>
            if e.classId = classId then
              some (examView (isSchoolMember caller) localNow e)
            else none
        | _ => none)

/-- The JSON object returned by `GetCorrectionFile` on success. -/
structure CorrectionFileView where
  id : String
  title : String
  examDate : Instant
  correctionFileHash : String
  correctionUploadedAt : Option Instant
  classId : String
  moduleId : String
deriving DecidableEq

/-- `GetCorrectionFile` of `lib/exam.js` (lines 397-446): loads the exam,
re-runs the enrollment check against the exam's own class, fails when no
correction was uploaded (JS falsy check), then fails for non-teachers while
`new Date()` is before `examDate + 48h`, else returns the hash. -/
def GetCorrectionFile (st : Ledger) (caller : Caller) (localNow : Instant)
    (examId : String) : Except CcErr CorrectionFileView :=
  match getState st examId with
  | none => .error .notFound
  | some (.examRec exam) =>
      match checkEnrollment st caller exam.classId with
      | .error e => .error e
      | .ok _ =>
          if strFalsy exam.correctionFileHash then .error .notFound
          else
            let correctionAvailableAt : Instant :=
              exam.examDate + 48 * 60 * 60 * 1000
            if !isSchoolMember caller && decide (localNow < correctionAvailableAt)
            then .error .notYetAvailable
            else
              .ok { id := exam.id, title := exam.title,
                    examDate := exam.examDate,
                    correctionFileHash := exam.correctionFileHash.getD "",
                    correctionUploadedAt := exam.correctionUploadedAt,
                    classId := exam.classId, moduleId := exam.moduleId }
  | some _ => .error .notAnExam

end AcademicCC.ExamContract

namespace AcademicCC.ClassContract

/-- `CreateClass` of `lib/class.js`: SchoolMSP only, key must be free; the
stored class starts with empty `modules` and `enrolledStudents`, both
timestamps from the deterministic transaction timestamp. -/
def CreateClass (st : Ledger) (caller : Caller) (txTime : Instant)
    (classId name description : String) : Except CcErr Ledger :=
  if !isSchoolMember caller then .error .accessDenied
  else if (getState st classId).isSome then .error .alreadyExists
  else
    .ok (putState st classId (.classRec
      { id := classId, name := name, description := description,
        modules := [], enrolledStudents := [],
        createdBy := caller.callerId,
        createdAt := txTime, updatedAt := txTime }))

/-- `EnrollStudent` of `lib/class.js`: SchoolMSP may enroll anyone, a
student only themself; the class must exist and be a class; an existing
member throws (`already enrolled`); on success the student id is appended
and `updatedAt` refreshed from the transaction timestamp. -/
def EnrollStudent (st : Ledger) (caller : Caller) (txTime : Instant)
    (classId studentId : String) : Except CcErr Ledger :=
  if !isSchoolMember caller && !isStudentMember caller then .error .accessDenied
  else if isStudentMember caller && caller.callerId != studentId then
    .error .accessDenied
  else
    match getState st classId with
    | none => .error .notFound
    | some (.classRec cd) =>
        if cd.enrolledStudents.contains studentId then .error .alreadyEnrolled
        else
          .ok (putState st classId (.classRec
            { cd with enrolledStudents := cd.enrolledStudents ++ [studentId],
                      updatedAt := txTime }))
    | some _ => .error .notAClass

/-- The public projection returned by `GetAllClasses`: exactly the three
fields the JS loop pushes. -/
structure ClassPublicView where
  id : String
  name : String
  description : String
deriving DecidableEq

/-- `GetAllClasses` of `lib/class.js`: no access check at all; a full range
scan keeping the class records, each projected to `{id, name, description}`.
The caller argument is what the transaction context would resolve; the
source never consults it. -/
def GetAllClasses (st : Ledger) (_caller : Caller) : List ClassPublicView :=
  st.filterMap fun p =>
    match p.2 with
    | .classRec c => some { id := c.id, name := c.name,
                            description := c.description }
    | _ => none

end AcademicCC.ClassContract

namespace AcademicCC.AcademicContract

/-- `SubmitGrade` of `index.js` (lines 215-252): SchoolMSP only, the exam
key must be occupied (no docType check); there is no score validation and
no gradeId-collision check in the source — the grade is stored with
`isPublished: false` and `submittedAt` from the transaction timestamp. -/
def SubmitGrade (st : Ledger) (caller : Caller) (txTime : Instant)
    (gradeId examId studentId : String) (score maxScore : Int)
    (comments : String) : Except CcErr (Ledger × GradeData) :=
  if !isSchoolMember caller then .error .accessDenied
  else
    match getState st examId with
    | none => .error .notFound
    | some _ =>
        let grade : GradeData :=
          { gradeId := gradeId, examId := examId, studentId := studentId,
            score := score, maxScore := maxScore, comments := comments,
            isPublished := false, submittedAt := txTime, publishedAt := none }
        .ok (putState st gradeId (.gradeRec grade), grade)

/-- The `studentId` field of a parsed record (`undefined`, i.e. `none`, on
records of another kind). -/
def recStudentId : Rec → Option String
  | .gradeRec g => some g.studentId
  | _ => none

/-- The `isPublished` field of a parsed record; `undefined` on records of
another kind is falsy. -/
def recIsPublished : Rec → Bool
  | .gradeRec g => g.isPublished
  | _ => false

/-- `GetGrade` of `index.js` (lines 280-305): loads the record (no docType
check); a StudentsMSP caller must be the subject student (else access
denied) and the grade must be published (else not published); every other
MSP gets the record unconditionally. -/
def GetGrade (st : Ledger) (caller : Caller) (gradeId : String) :
    Except CcErr Rec :=
  match getState st gradeId with
  | none => .error .notFound
  | some r =>
      if caller.mspId = "StudentsMSP" then
        if recStudentId r != some caller.callerId then .error .accessDenied
        else if !recIsPublished r then .error .notPublished
        else .ok r
      else .ok r

end AcademicCC.AcademicContract

namespace AcademicCC.GradeContract

/-- `_canAccessGrade` of `lib/grade.js` (lines 58-79): teachers always pass;
a student passes exactly on their own `studentId`; any other MSP is denied. -/
def canAccessGrade (caller : Caller) (studentId : String) : Except CcErr Unit :=
  if isSchoolMember caller then .ok ()
  else if isStudentMember caller then
    if caller.callerId = studentId then .ok () else .error .accessDenied
  else .error .accessDenied

/-- `GetGrade` of `lib/grade.js` (lines 725-746): loads the record, requires
`docType === 'grade'`, then only the ownership check `_canAccessGrade` —
the record's published state is never consulted. -/
def GetGrade (st : Ledger) (caller : Caller) (gradeId : String) :
    Except CcErr Rec :=
  match getState st gradeId with
  | none => .error .notFound
  | some (.gradeRec g) =>
      match canAccessGrade caller g.studentId with
      | .error e => .error e
      | .ok _ => .ok (.gradeRec g)
  | some _ => .error .notAGrade

end AcademicCC.GradeContract

namespace AcademicCC

theorem getState_putState_self (st : Ledger) (k : String) (r : Rec) :
    getState (putState st k r) k = some r := by
  induction st with
  | nil => simp [putState, getState]
  | cons p rest ih =>
      obtain ⟨k1, r1⟩ := p
      by_cases h : k1 = k <;> simp [putState, getState, h, ih]

theorem getState_putState_ne (st : Ledger) (k k2 : String) (r : Rec)
    (h : k2 ≠ k) : getState (putState st k r) k2 = getState st k2 := by
  induction st with
  | nil => simp [putState, getState, Ne.symm h]
  | cons p rest ih =>
      obtain ⟨k1, r1⟩ := p
      by_cases h1 : k1 = k
      · subst h1
        simp [putState, getState, Ne.symm h, ih]
      · simp [putState, getState, h1, ih]

end AcademicCC

namespace AcademicCC

/-- C4: for an existing exam and an Institution (SchoolMSP) caller,
`UploadCorrection` fails with TooEarly exactly when the instant read inside
the operation is strictly before the stored `examDate`; at or after
`examDate` it succeeds, and the resulting world state holds the exam with
the new correction pointer and upload time. -/
theorem uploadCorrection_temporal_gate
    (st : Ledger) (caller : Caller) (localNow : Instant)
    (examId hsh : String) (e : ExamData)
    (hsch : isSchoolMember caller = true)
    (hlook : getState st examId = some (.examRec e)) :
    (ExamContract.UploadCorrection st caller localNow examId hsh =
        .error .tooEarly ↔ localNow < e.examDate)
    ∧ (e.examDate ≤ localNow →
        ExamContract.UploadCorrection st caller localNow examId hsh =
          .ok (putState st examId (.examRec { e with
                  correctionFileHash := some hsh,
                  correctionUploadedAt := some localNow }),
               { e with correctionFileHash := some hsh,
                        correctionUploadedAt := some localNow })
        ∧ getState (putState st examId (.examRec { e with
                  correctionFileHash := some hsh,
                  correctionUploadedAt := some localNow })) examId =
            some (.examRec { e with
                  correctionFileHash := some hsh,
                  correctionUploadedAt := some localNow })) := by
  constructor
  · unfold ExamContract.UploadCorrection
    rw [hlook]
    by_cases hlt : localNow < e.examDate <;> simp [hsch, hlt]
  · intro hge
    unfold ExamContract.UploadCorrection
    rw [hlook]
    simp [hsch, not_lt.2 hge]
    exact getState_putState_self ..

/-- Exam fixture for the C4 witness: exam date at instant 1000, no
correction yet. -/
def examC4 : ExamData :=
  { id := "EX4", classId := "CL4", moduleId := "M1", title := "Final",
    examDate := 1000, examFileHash := "QmExam4", correctionFileHash := none,
    correctionUploadedAt := none, createdBy := "teacher1", createdAt := 0 }

/-- World state for the C4 witness. -/
def ledgerC4 : Ledger := [("EX4", .examRec examC4)]

/-- SchoolMSP caller for the C4 witness. -/
def teacherC4 : Caller := ⟨"SchoolMSP", "teacher1"⟩

/-- Witness for C4 at a concrete input: the hypotheses hold for the fixture
and the theorem applies at instant 1000 (which is `examC4.examDate`). -/
theorem uploadCorrection_temporal_gate_witness :
    (isSchoolMember teacherC4 = true
      ∧ getState ledgerC4 "EX4" = some (.examRec examC4))
    ∧ ((ExamContract.UploadCorrection ledgerC4 teacherC4 1000 "EX4" "QmCorr" =
          .error .tooEarly ↔ (1000 : Instant) < examC4.examDate)
       ∧ (examC4.examDate ≤ (1000 : Instant) →
          ExamContract.UploadCorrection ledgerC4 teacherC4 1000 "EX4" "QmCorr" =
            .ok (putState ledgerC4 "EX4" (.examRec { examC4 with
                    correctionFileHash := some "QmCorr",
                    correctionUploadedAt := some 1000 }),
                 { examC4 with correctionFileHash := some "QmCorr",
                               correctionUploadedAt := some 1000 })
          ∧ getState (putState ledgerC4 "EX4" (.examRec { examC4 with
                    correctionFileHash := some "QmCorr",
                    correctionUploadedAt := some 1000 })) "EX4" =
              some (.examRec { examC4 with
                    correctionFileHash := some "QmCorr",
                    correctionUploadedAt := some 1000 }))) :=
  ⟨⟨by decide, by decide⟩,
   uploadCorrection_temporal_gate ledgerC4 teacherC4 1000 "EX4" "QmCorr"
     examC4 (by decide) (by decide)⟩

/-- C10: a second `UploadCorrection` on an exam that already carries a
correction pointer, by an Institution caller at or after the exam date,
succeeds and replaces both the stored pointer and the upload timestamp
(overwrite semantics — the source has no occupancy check on
`correctionFileHash`). -/
theorem uploadCorrection_overwrites
    (st : Ledger) (caller : Caller) (localNow : Instant)
    (examId h0 h1 : String) (e : ExamData)
    (hsch : isSchoolMember caller = true)
    (hlook : getState st examId = some (.examRec e))
    (_hprev : e.correctionFileHash = some h0)
    (hlate : e.examDate ≤ localNow) :
    ExamContract.UploadCorrection st caller localNow examId h1 =
      .ok (putState st examId (.examRec { e with
              correctionFileHash := some h1,
              correctionUploadedAt := some localNow }),
           { e with correctionFileHash := some h1,
                    correctionUploadedAt := some localNow })
    ∧ getState (putState st examId (.examRec { e with
              correctionFileHash := some h1,
              correctionUploadedAt := some localNow })) examId =
        some (.examRec { e with
              correctionFileHash := some h1,
              correctionUploadedAt := some localNow }) := by
  unfold ExamContract.UploadCorrection
  rw [hlook]
  simp [hsch, not_lt.2 hlate]
  exact getState_putState_self ..

/-- Exam fixture for the C10 witness: correction "QmOld" already uploaded. -/
def examC10 : ExamData :=
  { id := "EX10", classId := "CL10", moduleId := "M1", title := "Midterm",
    examDate := 500, examFileHash := "QmExam10",
    correctionFileHash := some "QmOld", correctionUploadedAt := some 600,
    createdBy := "teacher1", createdAt := 0 }

/-- World state for the C10 witness. -/
def ledgerC10 : Ledger := [("EX10", .examRec examC10)]

/-- SchoolMSP caller for the C10 witness. -/
def teacherC10 : Caller := ⟨"SchoolMSP", "teacher1"⟩

/-- Witness for C10 at a concrete input: re-upload at instant 700 replaces
"QmOld" by "QmNew" and the upload time by 700. -/
theorem uploadCorrection_overwrites_witness :
    (isSchoolMember teacherC10 = true
      ∧ getState ledgerC10 "EX10" = some (.examRec examC10)
      ∧ examC10.correctionFileHash = some "QmOld"
      ∧ examC10.examDate ≤ (700 : Instant))
    ∧ (ExamContract.UploadCorrection ledgerC10 teacherC10 700 "EX10" "QmNew" =
        .ok (putState ledgerC10 "EX10" (.examRec { examC10 with
                correctionFileHash := some "QmNew",
                correctionUploadedAt := some 700 }),
             { examC10 with correctionFileHash := some "QmNew",
                            correctionUploadedAt := some 700 })
      ∧ getState (putState ledgerC10 "EX10" (.examRec { examC10 with
                correctionFileHash := some "QmNew",
                correctionUploadedAt := some 700 })) "EX10" =
          some (.examRec { examC10 with
                correctionFileHash := some "QmNew",
                correctionUploadedAt := some 700 })) :=
  ⟨⟨by decide, by decide, by decide, by decide⟩,
   uploadCorrection_overwrites ledgerC10 teacherC10 700 "EX10" "QmOld" "QmNew"
     examC10 (by decide) (by decide) (by decide) (by decide)⟩

/-- Exam fixture for C3: exam date at instant 1000. -/
def examC3 : ExamData :=
  { id := "EX3", classId := "CL3", moduleId := "M1", title := "Quiz",
    examDate := 1000, examFileHash := "QmExam3", correctionFileHash := none,
    correctionUploadedAt := none, createdBy := "teacher1", createdAt := 0 }

/-- World state for C3. -/
def ledgerC3 : Ledger := [("EX3", .examRec examC3)]

/-- SchoolMSP caller for C3. -/
def teacherC3 : Caller := ⟨"SchoolMSP", "teacher1"⟩

/-- C3: `UploadCorrection` of `lib/exam.js` is NOT a function of the
operation arguments, the resolved caller, the per-operation transaction
timestamp and the prior state alone: its `now` is `new Date()`, the
peer-local wall clock.  With the store, caller and arguments all fixed, two
executions whose local clocks read 999 and 1000 produce a TooEarly failure
and a successful write respectively — two endorsing peers can therefore
disagree on the same transaction. -/
theorem uploadCorrection_reads_local_clock :
    ExamContract.UploadCorrection ledgerC3 teacherC3 999 "EX3" "QmC" =
      .error .tooEarly
    ∧ ExamContract.UploadCorrection ledgerC3 teacherC3 1000 "EX3" "QmC" =
        .ok (putState ledgerC3 "EX3" (.examRec { examC3 with
                correctionFileHash := some "QmC",
                correctionUploadedAt := some 1000 }),
             { examC3 with correctionFileHash := some "QmC",
                           correctionUploadedAt := some 1000 })
    ∧ ExamContract.UploadCorrection ledgerC3 teacherC3 999 "EX3" "QmC" ≠
        ExamContract.UploadCorrection ledgerC3 teacherC3 1000 "EX3" "QmC" := by
  refine ⟨by decide, by decide, by decide⟩

end AcademicCC

namespace AcademicCC

/-- C7: after a successful `EnrollStudent` of `studentId`, a second call for
the same class and student by any authorized caller (SchoolMSP, or the
student themself) fails with the already-enrolled conflict — so the
enrollment set is unchanged, errors committing nothing — and the operation
preserves the global invariant that no class's `enrolledStudents` contains a
duplicate. -/
theorem enrollStudent_conflict_and_nodup
    (st st2 : Ledger) (caller caller2 : Caller) (t t2 : Instant)
    (classId studentId : String)
    (hok : ClassContract.EnrollStudent st caller t classId studentId = .ok st2)
    (hauth : isSchoolMember caller2 = true ∨
      (isStudentMember caller2 = true ∧ caller2.callerId = studentId)) :
    ClassContract.EnrollStudent st2 caller2 t2 classId studentId =
      .error .alreadyEnrolled
    ∧ ((∀ k cd, getState st k = some (.classRec cd) →
          cd.enrolledStudents.Nodup) →
       ∀ k cd, getState st2 k = some (.classRec cd) →
          cd.enrolledStudents.Nodup) := by
  unfold ClassContract.EnrollStudent at hok
  split at hok
  · exact absurd hok (by simp)
  split at hok
  · exact absurd hok (by simp)
  split at hok
  · exact absurd hok (by simp)
  case _ cd hget =>
    split at hok
    · exact absurd hok (by simp)
    case _ hmem =>
      rw [Except.ok.injEq] at hok
      subst hok
      constructor
      · unfold ClassContract.EnrollStudent
        have hnA : (!isSchoolMember caller2 && !isStudentMember caller2)
            = false := by
          rcases hauth with hs | ⟨hstu, _⟩
          · simp [hs]
          · simp [hstu]
        have hnB : (isStudentMember caller2
            && caller2.callerId != studentId) = false := by
          rcases hauth with hs | ⟨hstu, heq⟩
          · simp [isSchoolMember] at hs
            simp [isStudentMember, hs]
          · simp [heq]
        rw [hnA, hnB]
        simp only [Bool.false_eq_true, if_false]
        rw [getState_putState_self]
        simp
      · intro hall k cd2 hget2
        by_cases hk : k = classId
        · subst hk
          rw [getState_putState_self] at hget2
          rw [Option.some.injEq] at hget2
          rw [Rec.classRec.injEq] at hget2
          subst hget2
          have hnd := hall k cd hget
          have hnotmem : studentId ∉ cd.enrolledStudents := by
            simpa using hmem
          simp [List.nodup_append, hnd, hnotmem]
        · rw [getState_putState_ne _ _ _ _ hk] at hget2
          exact hall k cd2 hget2
  case _ r hget => exact absurd hok (by simp)

/-- Class fixture for the C7 witness: empty enrollment. -/
def classC7 : ClassData :=
  { id := "CL7", name := "Maths", description := "Algebra",
    modules := [], enrolledStudents := [], createdBy := "teacher1",
    createdAt := 0, updatedAt := 0 }

/-- Initial world state for the C7 witness. -/
def ledgerC7 : Ledger := [("CL7", .classRec classC7)]

/-- World state after the first enrollment in the C7 witness. -/
def ledgerC7b : Ledger :=
  [("CL7", .classRec { classC7 with enrolledStudents := ["alice"],
                                    updatedAt := 10 })]

/-- SchoolMSP caller for the C7 witness. -/
def teacherC7 : Caller := ⟨"SchoolMSP", "teacher1"⟩

/-- Witness for C7 at a concrete input: enrolling "alice" into "CL7"
succeeds once, and the second call (again by the teacher) hits the
already-enrolled conflict. -/
theorem enrollStudent_conflict_and_nodup_witness :
    (ClassContract.EnrollStudent ledgerC7 teacherC7 10 "CL7" "alice" =
        .ok ledgerC7b
      ∧ isSchoolMember teacherC7 = true)
    ∧ ClassContract.EnrollStudent ledgerC7b teacherC7 20 "CL7" "alice" =
        .error .alreadyEnrolled :=
  ⟨⟨by decide, by decide⟩,
   (enrollStudent_conflict_and_nodup ledgerC7 ledgerC7b teacherC7 teacherC7
      10 20 "CL7" "alice" (by decide) (Or.inl (by decide))).1⟩

end AcademicCC

namespace AcademicCC

/-- C8: the enrollment-check primitive of `lib/material.js` and the one of
`lib/exam.js` are extensionally equal, and both grant an Institution
(SchoolMSP) caller unconditionally, fail a Learner (StudentsMSP) caller with
NotFound when the class key is absent, grant a Learner exactly on membership
of the class's enrollment set (AccessDenied otherwise), and deny every other
affiliation. -/
theorem checkEnrollment_material_exam_agree
    (st : Ledger) (caller : Caller) (classId : String) :
    MaterialContract.checkEnrollment st caller classId =
      ExamContract.checkEnrollment st caller classId
    ∧ (isSchoolMember caller = true →
        ExamContract.checkEnrollment st caller classId = .ok ())
    ∧ (isStudentMember caller = true → getState st classId = none →
        ExamContract.checkEnrollment st caller classId = .error .notFound)
    ∧ (∀ cd, isStudentMember caller = true →
        getState st classId = some (.classRec cd) →
        (ExamContract.checkEnrollment st caller classId = .ok () ↔
          caller.callerId ∈ cd.enrolledStudents)
        ∧ (caller.callerId ∉ cd.enrolledStudents →
            ExamContract.checkEnrollment st caller classId =
              .error .accessDenied))
    ∧ (isSchoolMember caller = false → isStudentMember caller = false →
        ExamContract.checkEnrollment st caller classId =
          .error .accessDenied) := by
  refine ⟨rfl, ?_, ?_, ?_, ?_⟩
  · intro hs
    simp [ExamContract.checkEnrollment, hs]
  · intro hstu hnone
    have hs : isSchoolMember caller = false := by
      simp [isStudentMember] at hstu
      simp [isSchoolMember, hstu]
    simp [ExamContract.checkEnrollment, hs, hstu, hnone]
  · intro cd hstu hcd
    have hs : isSchoolMember caller = false := by
      simp [isStudentMember] at hstu
      simp [isSchoolMember, hstu]
    by_cases hm : caller.callerId ∈ cd.enrolledStudents
    · constructor
      · simp [ExamContract.checkEnrollment, hs, hstu, hcd, hm]
      · intro hnm
        exact absurd hm hnm
    · constructor
      · simp [ExamContract.checkEnrollment, hs, hstu, hcd, hm]
      · intro _
        simp [ExamContract.checkEnrollment, hs, hstu, hcd, hm]
  · intro hs hstu
    simp [ExamContract.checkEnrollment, hs, hstu]

/-- Class fixture for the C8 witness: "bob" enrolled. -/
def classC8 : ClassData :=
  { id := "CL8", name := "Crypto", description := "Cryptography",
    modules := [], enrolledStudents := ["bob"], createdBy := "teacher1",
    createdAt := 0, updatedAt := 0 }

/-- World state for the C8 witness. -/
def ledgerC8 : Ledger := [("CL8", .classRec classC8)]

/-- StudentsMSP caller for the C8 witness. -/
def bobC8 : Caller := ⟨"StudentsMSP", "bob"⟩

/-- Witness for C8 at a concrete input: the two primitives agree on an
enrolled student, and the Exam variant grants exactly on membership. -/
theorem checkEnrollment_material_exam_agree_witness :
    (MaterialContract.checkEnrollment ledgerC8 bobC8 "CL8" =
       ExamContract.checkEnrollment ledgerC8 bobC8 "CL8")
    ∧ ExamContract.checkEnrollment ledgerC8 bobC8 "CL8" = .ok () :=
  ⟨(checkEnrollment_material_exam_agree ledgerC8 bobC8 "CL8").1,
   ((checkEnrollment_material_exam_agree ledgerC8 bobC8 "CL8").2.2.2.1
      classC8 (by decide) (by decide)).1.mpr (by decide)⟩

/-- Two world-state records that agree on everything `GetAllClasses`
exposes: class records with the same `{id, name, description}` (modules and
enrollment free to differ), and non-class records matched with non-class
records. -/
def sameClassPublic : Rec → Rec → Prop
  | .classRec c, .classRec c2 =>
      c.id = c2.id ∧ c.name = c2.name ∧ c.description = c2.description
  | .classRec _, _ => False
  | _, .classRec _ => False
  | _, _ => True

/-- C9: `GetAllClasses` depends neither on the caller nor on anything
beyond each class's `{id, name, description}`: two states related pointwise
by `sameClassPublic` (same public class data, arbitrary modules/enrollment)
produce the same listing for any two callers; and every returned element is
exactly the three-field projection of some stored class record. -/
theorem getAllClasses_public_fields_only
    (st st2 : Ledger) (caller caller2 : Caller)
    (hrel : List.Forall₂ (fun p q => sameClassPublic p.2 q.2) st st2) :
    ClassContract.GetAllClasses st caller =
      ClassContract.GetAllClasses st2 caller2
    ∧ ∀ v ∈ ClassContract.GetAllClasses st caller, ∃ c : ClassData,
        (Rec.classRec c) ∈ st.map Prod.snd
        ∧ v = { id := c.id, name := c.name, description := c.description } := by
  constructor
  · unfold ClassContract.GetAllClasses
    induction hrel with
    | nil => rfl
    | cons hpq _ ih =>
        rename_i p q l1 l2 _
        cases hp : p.2 <;> cases hq : q.2 <;>
          rw [hp, hq] at hpq <;> simp [sameClassPublic] at hpq <;>
          simp [List.filterMap_cons, hp, hq, ih]
        case classRec.classRec c c2 =>
          obtain ⟨h1, h2, h3⟩ := hpq
          simp [h1, h2, h3, ih]
  · intro v hv
    unfold ClassContract.GetAllClasses at hv
    rw [List.mem_filterMap] at hv
    obtain ⟨p, hp, hfv⟩ := hv
    cases hrec : p.2 <;> rw [hrec] at hfv <;>
      simp only [Option.some.injEq, reduceCtorEq] at hfv
    case classRec c =>
      exact ⟨c, by
        rw [List.mem_map]
        exact ⟨p, hp, hrec⟩, hfv.symm⟩

/-- First world state for the C9 witness: one class with an enrollment. -/
def ledgerC9a : Ledger :=
  [("CL9", .classRec
     { id := "CL9", name := "Net", description := "Networks",
       modules := ["m1"], enrolledStudents := ["alice", "bob"],
       createdBy := "teacher1", createdAt := 0, updatedAt := 5 })]

/-- Second world state for the C9 witness: same public class data, after
enrollment churn and module edits. -/
def ledgerC9b : Ledger :=
  [("CL9", .classRec
     { id := "CL9", name := "Net", description := "Networks",
       modules := [], enrolledStudents := ["carol"],
       createdBy := "teacher1", createdAt := 0, updatedAt := 9 })]

/-- StudentsMSP caller for the C9 witness. -/
def carolC9 : Caller := ⟨"StudentsMSP", "carol"⟩

/-- SchoolMSP caller for the C9 witness. -/
def teacherC9 : Caller := ⟨"SchoolMSP", "teacher1"⟩

/-- Witness for C9 at a concrete input: a privileged and an unprivileged
caller, across enrollment churn, see the identical public listing. -/
theorem getAllClasses_public_fields_only_witness :
    ClassContract.GetAllClasses ledgerC9a teacherC9 =
      ClassContract.GetAllClasses ledgerC9b carolC9 :=
  (getAllClasses_public_fields_only ledgerC9a ledgerC9b teacherC9 carolC9
    (by simp [ledgerC9a, ledgerC9b, sameClassPublic])).1

end AcademicCC

namespace AcademicCC

/-- The per-exam object that `GetExams` builds for a non-teacher never has
a `correctionFileHash` field: both student branches of the source leave the
field unset. -/
theorem examView_student_hash_none (localNow : Instant) (e : ExamData) :
    (ExamContract.examView false localNow e).correctionFileHash = none := by
  unfold ExamContract.examView
  simp only [Bool.false_eq_true, if_false]
  split <;> rfl

/-- Class fixture for C2: "carol" enrolled. -/
def classC2 : ClassData :=
  { id := "CL2", name := "Sec", description := "Security",
    modules := [], enrolledStudents := ["carol"], createdBy := "teacher1",
    createdAt := 0, updatedAt := 0 }

/-- Exam fixture for C2: correction "QmSecret" uploaded. -/
def examC2 : ExamData :=
  { id := "EX2", classId := "CL2", moduleId := "M1", title := "Final",
    examDate := 0, examFileHash := "QmE2",
    correctionFileHash := some "QmSecret", correctionUploadedAt := some 1,
    createdBy := "teacher1", createdAt := 0 }

/-- World state for C2. -/
def ledgerC2 : Ledger := [("CL2", .classRec classC2), ("EX2", .examRec examC2)]

/-- SchoolMSP caller for C2. -/
def teacherC2 : Caller := ⟨"SchoolMSP", "teacher1"⟩

/-- StudentsMSP caller for C2. -/
def carolC2 : Caller := ⟨"StudentsMSP", "carol"⟩

/-- Counterexample to C2 as stated: for an Institution (SchoolMSP) caller,
`GetExams` DOES include the stored correction pointer in its listing — the
teacher branch of the source copies `record.correctionFileHash` into the
returned object. -/
theorem getExams_returns_pointer_to_teacher :
    ExamContract.GetExams ledgerC2 teacherC2 999999999 "CL2" =
      .ok [{ id := "EX2", classId := "CL2", moduleId := "M1",
             title := "Final", examDate := 0, createdBy := "teacher1",
             createdAt := 0,
             correctionFileHash := some (some "QmSecret"),
             correctionUploadedAt := some (some 1),
             correctionAvailable := true }] := by decide

/-- C2 (amended): for every non-Institution caller, `GetExams` never
includes the correction content pointer in any element of its result; only
Institution callers receive the pointer in the listing. -/
theorem getExams_hides_pointer_from_learners
    (st : Ledger) (caller : Caller) (localNow : Instant) (classId : String)
    (vs : List ExamContract.ExamView)
    (hns : isSchoolMember caller = false)
    (hok : ExamContract.GetExams st caller localNow classId = .ok vs) :
    ∀ v ∈ vs, v.correctionFileHash = none := by
  unfold ExamContract.GetExams at hok
  split at hok
  · exact absurd hok (by simp)
  · rw [Except.ok.injEq] at hok
    subst hok
    intro v hv
    rw [List.mem_filterMap] at hv
    obtain ⟨p, hp, hfv⟩ := hv
    split at hfv
    · rw [hns] at hfv
      split at hfv
      · rw [Option.some.injEq] at hfv
        subst hfv
        exact examView_student_hash_none localNow _
      · exact absurd hfv (by simp)
    · exact absurd hfv (by simp)

/-- Witness for the amended C2 at a concrete input: the enrolled student
"carol" lists the same class at the same instant and the single entry
carries no correction pointer. -/
theorem getExams_hides_pointer_from_learners_witness :
    (ExamContract.examView false 999999999 examC2).correctionFileHash =
      none :=
  getExams_hides_pointer_from_learners ledgerC2 carolC2 999999999 "CL2"
    [ExamContract.examView false 999999999 examC2] (by decide) (by decide)
    (ExamContract.examView false 999999999 examC2) (by simp)

end AcademicCC

namespace AcademicCC

/-- A key that `getState` resolves is bound in the scanned list. -/
theorem getState_mem (st : Ledger) (k : String) (r : Rec)
    (h : getState st k = some r) : (k, r) ∈ st := by
  induction st with
  | nil => simp [getState] at h
  | cons p rest ih =>
      obtain ⟨k1, r1⟩ := p
      by_cases hk : k1 = k
      · subst hk
        simp [getState] at h
        subst h
        exact List.mem_cons_self ..
      · simp [getState, hk] at h
        exact List.mem_cons_of_mem _ (ih h)

/-- The availability bit that `GetExams` computes for any exam record:
`now >= examDate + 48h && correctionFileHash !== null`, independent of the
caller branch. -/
theorem examView_available (b : Bool) (localNow : Instant) (e : ExamData) :
    (ExamContract.examView b localNow e).correctionAvailable =
      (decide (e.examDate + 48 * 60 * 60 * 1000 ≤ localNow)
        && e.correctionFileHash.isSome) := by
  unfold ExamContract.examView
  split
  · rfl
  · dsimp only
    split <;> rfl

/-- C5: for a Learner caller whose `ListExams` call on the exam's class
succeeds and lists the exam with correctionAvailable = false, a
`GetCorrectionFile` for the same exam at the same instant fails with
NotFound (no correction uploaded) or NotYetAvailable (inside the 48h
window) — both operations derive availability from the same
`examDate + 48h` computation, so the pointer is never returned. -/
theorem listedUnavailable_fetch_fails
    (st : Ledger) (caller : Caller) (localNow : Instant)
    (examId : String) (e : ExamData) (vs : List ExamContract.ExamView)
    (hns : isSchoolMember caller = false)
    (hlook : getState st examId = some (.examRec e))
    (hlist : ExamContract.GetExams st caller localNow e.classId = .ok vs)
    (hfalse : (ExamContract.examView false localNow e).correctionAvailable
        = false) :
    ExamContract.examView false localNow e ∈ vs
    ∧ (ExamContract.GetCorrectionFile st caller localNow examId =
          .error .notFound
       ∨ ExamContract.GetCorrectionFile st caller localNow examId =
          .error .notYetAvailable) := by
  unfold ExamContract.GetExams at hlist
  split at hlist
  · exact absurd hlist (by simp)
  case _ u henr =>
    rw [Except.ok.injEq] at hlist
    subst hlist
    constructor
    · rw [List.mem_filterMap]
      refine ⟨(examId, .examRec e), getState_mem st examId _ hlook, ?_⟩
      simp [hns]
    · rw [examView_available] at hfalse
      rw [Bool.and_eq_false_iff] at hfalse
      unfold ExamContract.GetCorrectionFile
      rw [hlook]
      cases u
      simp only [henr]
      cases hhash : e.correctionFileHash with
      | none => left; simp [strFalsy]
      | some s =>
          have hlt : localNow < e.examDate + 48 * 60 * 60 * 1000 := by
            rcases hfalse with hd | hd
            · simpa using hd
            · rw [hhash] at hd
              simp at hd
          by_cases hes : s = ""
          · left
            subst hes
            simp [strFalsy]
          · right
            have hlt2 : localNow < e.examDate + 172800000 := by
              have h3 := hlt
              norm_num at h3
              exact h3
            simp [strFalsy, hes, hns, hlt2]

/-- Class fixture for C5: "dave" enrolled. -/
def classC5 : ClassData :=
  { id := "CL5", name := "OS", description := "Systems",
    modules := [], enrolledStudents := ["dave"], createdBy := "teacher1",
    createdAt := 0, updatedAt := 0 }

/-- Exam fixture for C5: correction uploaded at instant 10, exam date 0. -/
def examC5 : ExamData :=
  { id := "EX5", classId := "CL5", moduleId := "M1", title := "Lab",
    examDate := 0, examFileHash := "QmE5",
    correctionFileHash := some "Qm5", correctionUploadedAt := some 10,
    createdBy := "teacher1", createdAt := 0 }

/-- World state for C5. -/
def ledgerC5 : Ledger := [("CL5", .classRec classC5), ("EX5", .examRec examC5)]

/-- StudentsMSP caller for C5. -/
def daveC5 : Caller := ⟨"StudentsMSP", "dave"⟩

/-- Witness for C5 at a concrete input: at instant 100 (inside the 48h
window) the listing shows the exam as unavailable and the fetch fails. -/
theorem listedUnavailable_fetch_fails_witness :
    ExamContract.examView false 100 examC5 ∈
        [ExamContract.examView false 100 examC5]
    ∧ (ExamContract.GetCorrectionFile ledgerC5 daveC5 100 "EX5" =
          .error .notFound
       ∨ ExamContract.GetCorrectionFile ledgerC5 daveC5 100 "EX5" =
          .error .notYetAvailable) :=
  listedUnavailable_fetch_fails ledgerC5 daveC5 100 "EX5" examC5
    [ExamContract.examView false 100 examC5]
    (by decide) (by decide) (by decide) (by decide)

end AcademicCC

namespace AcademicCC

/-- Grade fixture for C1: unpublished grade of "alice". -/
def gradeC1 : GradeData :=
  { gradeId := "GR1", examId := "EX1", studentId := "alice", score := 15,
    maxScore := 20, comments := "", isPublished := false, submittedAt := 0,
    publishedAt := none }

/-- World state for C1. -/
def ledgerC1 : Ledger := [("GR1", .gradeRec gradeC1)]

/-- StudentsMSP caller for C1: the grade's own student. -/
def aliceC1 : Caller := ⟨"StudentsMSP", "alice"⟩

/-- Counterexample to C1 as stated: the chaincode exposes a second GetGrade
entry point, `GradeContract:GetGrade` of `lib/grade.js`, which checks only
ownership — the owning Learner retrieves a stored grade whose published
flag is false, so "succeeds if and only if ... AND the grade is published"
fails on that operation. -/
theorem gradeContract_getGrade_ignores_published :
    gradeC1.isPublished = false
    ∧ GradeContract.GetGrade ledgerC1 aliceC1 "GR1" =
        .ok (.gradeRec gradeC1) :=
  ⟨by decide, by decide⟩

/-- C1 (amended): for `AcademicContract.GetGrade` (`index.js`) the claim
holds — a Learner caller succeeds exactly when the grade's studentId equals
their callerId and the grade is published, a wrong student gets
AccessDenied, the right student before publication gets NotPublished, and
the two error conditions are distinct; `GradeContract.GetGrade`
(`lib/grade.js`) instead checks ownership only, returning even unpublished
grades to their owning student. -/
theorem academic_getGrade_learner_access
    (st : Ledger) (caller : Caller) (gradeId : String) (g : GradeData)
    (hmsp : caller.mspId = "StudentsMSP")
    (hlook : getState st gradeId = some (.gradeRec g)) :
    ((∃ r, AcademicContract.GetGrade st caller gradeId = .ok r) ↔
        (g.studentId = caller.callerId ∧ g.isPublished = true))
    ∧ (g.studentId ≠ caller.callerId →
        AcademicContract.GetGrade st caller gradeId = .error .accessDenied)
    ∧ (g.studentId = caller.callerId → g.isPublished = false →
        AcademicContract.GetGrade st caller gradeId = .error .notPublished)
    ∧ CcErr.accessDenied ≠ CcErr.notPublished
    ∧ (GradeContract.GetGrade st caller gradeId = .ok (.gradeRec g) ↔
        g.studentId = caller.callerId) := by
  have hstu : isStudentMember caller = true := by simp [isStudentMember, hmsp]
  have hsch : isSchoolMember caller = false := by simp [isSchoolMember, hmsp]
  refine ⟨?_, ?_, ?_, by simp, ?_⟩
  · by_cases howner : g.studentId = caller.callerId
    · by_cases hpub : g.isPublished = true
      · simp [AcademicContract.GetGrade, hlook, hmsp,
          AcademicContract.recStudentId, AcademicContract.recIsPublished,
          howner, hpub]
      · simp [AcademicContract.GetGrade, hlook, hmsp,
          AcademicContract.recStudentId, AcademicContract.recIsPublished,
          howner, hpub]
    · simp [AcademicContract.GetGrade, hlook, hmsp,
        AcademicContract.recStudentId, AcademicContract.recIsPublished,
        howner]
  · intro howner
    simp [AcademicContract.GetGrade, hlook, hmsp,
      AcademicContract.recStudentId, howner]
  · intro howner hpub
    simp [AcademicContract.GetGrade, hlook, hmsp,
      AcademicContract.recStudentId, AcademicContract.recIsPublished,
      howner, hpub]
  · by_cases howner : caller.callerId = g.studentId
    · simp [GradeContract.GetGrade, hlook, GradeContract.canAccessGrade,
        hsch, hstu, howner, eq_comm]
    · simp [GradeContract.GetGrade, hlook, GradeContract.canAccessGrade,
        hsch, hstu, howner, eq_comm]

/-- Witness for the amended C1 at a concrete input: the owning student of
the unpublished grade "GR1" gets the NotPublished error from the index.js
entry point. -/
theorem academic_getGrade_learner_access_witness :
    (aliceC1.mspId = "StudentsMSP"
      ∧ getState ledgerC1 "GR1" = some (.gradeRec gradeC1))
    ∧ AcademicContract.GetGrade ledgerC1 aliceC1 "GR1" =
        .error .notPublished :=
  ⟨⟨by decide, by decide⟩,
   (academic_getGrade_learner_access ledgerC1 aliceC1 "GR1" gradeC1
      (by decide) (by decide)).2.2.1 (by decide) (by decide)⟩

end AcademicCC

namespace AcademicCC

/-- Exam fixture for C6. -/
def examC6 : ExamData :=
  { id := "EX6", classId := "CL6", moduleId := "M1", title := "Test",
    examDate := 0, examFileHash := "QmE6", correctionFileHash := none,
    correctionUploadedAt := none, createdBy := "teacher1", createdAt := 0 }

/-- World state for C6. -/
def ledgerC6 : Ledger := [("EX6", .examRec examC6)]

/-- SchoolMSP caller for C6. -/
def teacherC6 : Caller := ⟨"SchoolMSP", "teacher1"⟩

/-- The grade record that `SubmitGrade` stores for the C6 counterexample:
score -5, accepted as-is. -/
def gradeC6 : GradeData :=
  { gradeId := "GR6", examId := "EX6", studentId := "alice", score := -5,
    maxScore := 20, comments := "", isPublished := false, submittedAt := 0,
    publishedAt := none }

/-- Counterexample to C6 as stated: `SubmitGrade` with the negative score
-5 does NOT fail with InvalidArgument — the source has no score validation
at all — it succeeds and stores the grade (with published = false). -/
theorem submitGrade_accepts_negative_score :
    AcademicContract.SubmitGrade ledgerC6 teacherC6 0 "GR6" "EX6" "alice"
        (-5) 20 "" =
      .ok (putState ledgerC6 "GR6" (.gradeRec gradeC6), gradeC6)
    ∧ gradeC6.score = -5 ∧ gradeC6.isPublished = false :=
  ⟨by decide, by decide, by decide⟩

/-- C6 (amended): `SubmitGrade` performs no score validation — for an
Institution caller and an occupied exam key it succeeds for every parsed
score value, negative included, and stores the grade with
published = false (the non-negative-score check exists only in the
GradeContract's own PublishGrade/UpdateGrade, not here). -/
theorem submitGrade_unvalidated_stores_unpublished
    (st : Ledger) (caller : Caller) (txTime : Instant)
    (gradeId examId studentId : String) (score maxScore : Int)
    (comments : String) (r : Rec)
    (hsch : isSchoolMember caller = true)
    (hexam : getState st examId = some r) :
    AcademicContract.SubmitGrade st caller txTime gradeId examId studentId
        score maxScore comments =
      .ok (putState st gradeId (.gradeRec
             { gradeId := gradeId, examId := examId, studentId := studentId,
               score := score, maxScore := maxScore, comments := comments,
               isPublished := false, submittedAt := txTime,
               publishedAt := none }),
           { gradeId := gradeId, examId := examId, studentId := studentId,
             score := score, maxScore := maxScore, comments := comments,
             isPublished := false, submittedAt := txTime,
             publishedAt := none })
    ∧ getState (putState st gradeId (.gradeRec
             { gradeId := gradeId, examId := examId, studentId := studentId,
               score := score, maxScore := maxScore, comments := comments,
               isPublished := false, submittedAt := txTime,
               publishedAt := none })) gradeId =
        some (.gradeRec
             { gradeId := gradeId, examId := examId, studentId := studentId,
               score := score, maxScore := maxScore, comments := comments,
               isPublished := false, submittedAt := txTime,
               publishedAt := none }) := by
  unfold AcademicContract.SubmitGrade
  rw [hexam]
  simp [hsch]
  exact getState_putState_self ..

/-- Witness for the amended C6 at a concrete input: score -7 is accepted
and stored unpublished. -/
theorem submitGrade_unvalidated_stores_unpublished_witness :
    (isSchoolMember teacherC6 = true
      ∧ getState ledgerC6 "EX6" = some (.examRec examC6))
    ∧ (AcademicContract.SubmitGrade ledgerC6 teacherC6 3 "GR6b" "EX6" "bob"
          (-7) 20 "late" =
        .ok (putState ledgerC6 "GR6b" (.gradeRec
               { gradeId := "GR6b", examId := "EX6", studentId := "bob",
                 score := -7, maxScore := 20, comments := "late",
                 isPublished := false, submittedAt := 3,
                 publishedAt := none }),
             { gradeId := "GR6b", examId := "EX6", studentId := "bob",
               score := -7, maxScore := 20, comments := "late",
               isPublished := false, submittedAt := 3,
               publishedAt := none })
      ∧ getState (putState ledgerC6 "GR6b" (.gradeRec
               { gradeId := "GR6b", examId := "EX6", studentId := "bob",
                 score := -7, maxScore := 20, comments := "late",
                 isPublished := false, submittedAt := 3,
                 publishedAt := none })) "GR6b" =
          some (.gradeRec
               { gradeId := "GR6b", examId := "EX6", studentId := "bob",
                 score := -7, maxScore := 20, comments := "late",
                 isPublished := false, submittedAt := 3,
                 publishedAt := none })) :=
  ⟨⟨by decide, by decide⟩,
   submitGrade_unvalidated_stores_unpublished ledgerC6 teacherC6 3 "GR6b"
     "EX6" "bob" (-7) 20 "late" (.examRec examC6) (by decide) (by decide)⟩

end AcademicCC
